import Mathlib

/-!
Verification of the vendor-qualification pipeline
(`src/data_processing/data_loader.py`, `src/similarity/feature_matcher.py`,
`src/ranking/vendor_ranker.py`, `src/api/app.py`).

Modelling conventions:
* Python floats (similarity scores, thresholds, weights, ratings) are
  modelled as rationals (`ℚ`); the claims under study are about exact
  comparisons and arithmetic identities, not rounding.
* pandas dataframes are modelled as Lean lists of rows, in dataframe row
  order; Python `dict` (insertion ordered) is modelled as an association
  list to which new keys are appended at the end.
* The sklearn TF-IDF + cosine-similarity computation is numerical library
  code; it is abstracted as a function from the combined text list to
  either a similarity matrix (success) or `none` (the `except` branch of
  `compute_similarity_matrix`).  All structural behaviour around it is
  translated from the source.
* Python `list.sort` is a stable sort; `List.insertionSort` (also stable)
  with the same comparison produces the identical output and stands in
  for it.
-/

namespace VendorQual

/-- One row of the flattened feature table produced by
`DataLoader.preprocess_data` and consumed by `FeatureMatcher`.
`main_category` may be missing (pandas `NaN`), hence `Option`;
`Features_Category` comes from `x.get('Category', None)`, hence `Option`;
the remaining feature fields get `''` / `0` defaults in the source. -/
structure FeatureRow where
  product_name : String
  seller : String
  main_category : Option String
  features_category : Option String
  feature_name : String
  feature_description : String
  feature_percent : ℚ
  feature_review : ℚ
deriving DecidableEq, Repr

/-- One feature-level match record built in
`FeatureMatcher.find_matching_features`. -/
structure FeatureMatch where
  product_name : String
  vendor : String
  main_category : Option String
  feature_category : Option String
  feature_name : String
  feature_description : String
  feature_percent : ℚ
  feature_review_count : ℚ
  matched_capability : String
  similarity_score : ℚ
  feature_text : String
deriving DecidableEq, Repr

/-- The per-feature record stored under a vendor's `matching_features`
in `FeatureMatcher.select_matching_vendors`. -/
structure MatchingFeature where
  feature_category : Option String
  feature_name : String
  feature_description : String
  feature_percent : ℚ
  feature_review_count : ℚ
  matched_capability : String
  similarity_score : ℚ
deriving DecidableEq, Repr

/-- A vendor aggregate as built by `FeatureMatcher.select_matching_vendors`.
`matched_capabilities` is a Python `set` in the source, modelled as a
`Finset` (its final conversion to a list has unspecified order).
`rating` is attached afterwards by the endpoint (`app.py`, Step 2); until
then it is `0`, matching `vendor_data.get('rating', 0.0)` on a missing key. -/
structure VendorAggregate where
  product_name : String
  vendor : String
  main_category : Option String
  matching_features : List MatchingFeature
  matched_capabilities : Finset String
  max_similarity_score : ℚ
  avg_similarity_score : ℚ
  total_matches : Nat
  rating : ℚ
deriving DecidableEq

/-- The per-vendor result record built by `VendorRanker.rank_vendors`. -/
structure RankedVendor where
  vendor_key : String
  product_name : String
  vendor : String
  main_category : Option String
  rank_score : ℚ
  max_similarity_score : ℚ
  avg_similarity_score : ℚ
  total_matches : Nat
  matched_capabilities : Finset String
  matching_features : List MatchingFeature
  rating : ℚ
deriving DecidableEq

/-- `VendorRanker.compute_rank_score` (src/ranking/vendor_ranker.py,
lines 18-55), on the `similarity_score=None` path used by `rank_vendors`:
the similarity input is the vendor's `avg_similarity_score`.  The
string-to-float conversion of `rating` is upstream of this model (an
unparseable string becomes `0.0`); `rating` arrives as a number here. -/
def compute_rank_score (feature_weight rating_weight : ℚ)
    (vendor_data : VendorAggregate) : ℚ :=
  let sim_score := vendor_data.avg_similarity_score
  let sim_score := max 0 (min 1 sim_score)
  let rating := vendor_data.rating
  let normalized_rating := if rating > 0 then rating / 5 else 0
  let normalized_rating := max 0 (min 1 normalized_rating)
  feature_weight * sim_score + rating_weight * normalized_rating

/-- The ordering used by `rank_vendors`: sort by `rank_score` descending.
`a` may come before `b` exactly when `b.rank_score ≤ a.rank_score`. -/
def rankedBefore (a b : RankedVendor) : Prop :=
  b.rank_score ≤ a.rank_score

instance : DecidableRel rankedBefore := fun a b =>
  inferInstanceAs (Decidable (b.rank_score ≤ a.rank_score))

instance : IsTotal RankedVendor rankedBefore :=
  ⟨fun a b => le_total b.rank_score a.rank_score⟩

instance : IsTrans RankedVendor rankedBefore :=
  ⟨fun _ _ _ hab hbc => le_trans hbc hab⟩

/-- The `vendor_result` record built inside the loop of
`VendorRanker.rank_vendors` (lines 73-92). -/
def toRankedVendor (feature_weight rating_weight : ℚ)
    (entry : String × VendorAggregate) : RankedVendor :=
  { vendor_key := entry.1
    product_name := entry.2.product_name
    vendor := entry.2.vendor
    main_category := entry.2.main_category
    rank_score := compute_rank_score feature_weight rating_weight entry.2
    max_similarity_score := entry.2.max_similarity_score
    avg_similarity_score := entry.2.avg_similarity_score
    total_matches := entry.2.total_matches
    matched_capabilities := entry.2.matched_capabilities
    matching_features := entry.2.matching_features
    rating := entry.2.rating }

/-- `VendorRanker.rank_vendors` (src/ranking/vendor_ranker.py, lines 57-102):
early return on an empty dict, build a result record per vendor in dict
insertion order, stable-sort by `rank_score` descending, slice to `top_n`. -/
def rank_vendors (feature_weight rating_weight : ℚ)
    (vendors_dict : List (String × VendorAggregate)) (top_n : Nat) :
    List RankedVendor :=
  if vendors_dict = [] then []
  else
    let ranked_vendors := vendors_dict.map (toRankedVendor feature_weight rating_weight)
    let ranked_vendors := ranked_vendors.insertionSort rankedBefore
    ranked_vendors.take top_n

/-- `FeatureMatcher._prepare_feature_text`
(src/similarity/feature_matcher.py, lines 25-42).  The source's None/NaN
guard collapses, on string-typed cells, to dropping empty strings and the
literal string produced by a float NaN. -/
def prepare_feature_text (feature_name feature_description : String) : String :=
  let name := if feature_name ≠ "" ∧ feature_name ≠ "nan" then feature_name else ""
  let desc :=
    if feature_description ≠ "" ∧ feature_description ≠ "nan" then feature_description
    else ""
  let combined_text := (name ++ " " ++ name ++ " " ++ desc).trim
  if combined_text ≠ "" then combined_text else "unknown feature"

/-- Result of `FeatureMatcher.compute_similarity_matrix`: either the empty
array returned on empty inputs (line 56), or a matrix, indexed by
(capability index, feature index). -/
inductive SimMatrix where
  | empty : SimMatrix
  | matrix (m : Nat → Nat → ℚ) : SimMatrix

/-- `FeatureMatcher.compute_similarity_matrix`
(src/similarity/feature_matcher.py, lines 44-76).  `vectorize` abstracts
the sklearn TF-IDF fit/transform plus cosine-similarity block on the
combined `capabilities + feature_texts` list: `some m` is a successful
similarity matrix, and `none` is the `except` branch, which the source
recovers from with an all-zero matrix of the same shape. -/
def compute_similarity_matrix (vectorize : List String → Option (Nat → Nat → ℚ))
    (capabilities feature_texts : List String) : SimMatrix :=
  if capabilities = [] ∨ feature_texts = [] then .empty
  else
    match vectorize (capabilities ++ feature_texts) with
    | some similarity_matrix => .matrix similarity_matrix
    | none => .matrix fun _ _ => 0

/-- The `match` record literal built in
`FeatureMatcher.find_matching_features` (lines 116-128). -/
def mkMatch (capability : String) (feature_row : FeatureRow)
    (similarity_score : ℚ) (feature_text : String) : FeatureMatch :=
  { product_name := feature_row.product_name
    vendor := feature_row.seller
    main_category := feature_row.main_category
    feature_category := feature_row.features_category
    feature_name := feature_row.feature_name
    feature_description := feature_row.feature_description
    feature_percent := feature_row.feature_percent
    feature_review_count := feature_row.feature_review
    matched_capability := capability
    similarity_score := similarity_score
    feature_text := feature_text }

/-- The ordering used by `find_matching_features`: sort matches by
`similarity_score` descending. -/
def simBefore (a b : FeatureMatch) : Prop :=
  b.similarity_score ≤ a.similarity_score

instance : DecidableRel simBefore := fun a b =>
  inferInstanceAs (Decidable (b.similarity_score ≤ a.similarity_score))

/-- `FeatureMatcher.find_matching_features`
(src/similarity/feature_matcher.py, lines 78-135): early return on empty
inputs, feature texts via `prepare_feature_text`, the similarity matrix,
the nested capability × feature-row loop retaining pairs with
`similarity_score >= threshold`, and the stable sort by score descending. -/
def find_matching_features (vectorize : List String → Option (Nat → Nat → ℚ))
    (similarity_threshold : ℚ) (capabilities : List String)
    (features_df : List FeatureRow) : List FeatureMatch :=
  if features_df = [] ∨ capabilities = [] then []
  else
    let feature_texts :=
      features_df.map fun r => prepare_feature_text r.feature_name r.feature_description
    match compute_similarity_matrix vectorize capabilities feature_texts with
    | .empty => []
    | .matrix similarity_matrix =>
      let match_list :=
        (capabilities.enum.map fun cap =>
          features_df.enum.filterMap fun feat =>
            if similarity_threshold ≤ similarity_matrix cap.1 feat.1 then
              some (mkMatch cap.2 feat.2 (similarity_matrix cap.1 feat.1)
                (prepare_feature_text feat.2.feature_name feat.2.feature_description))
            else none).flatten
      match_list.insertionSort simBefore

/-- The dict key `f"{product_name}_{vendor}"` of
`FeatureMatcher.select_matching_vendors` (line 150). -/
def vendorKey (m : FeatureMatch) : String :=
  m.product_name ++ "_" ++ m.vendor

/-- The per-feature record appended under `matching_features`
(`select_matching_vendors`, lines 165-173). -/
def toMatchingFeature (m : FeatureMatch) : MatchingFeature :=
  { feature_category := m.feature_category
    feature_name := m.feature_name
    feature_description := m.feature_description
    feature_percent := m.feature_percent
    feature_review_count := m.feature_review_count
    matched_capability := m.matched_capability
    similarity_score := m.similarity_score }

/-- The fresh vendor entry created when a key is first seen
(`select_matching_vendors`, lines 152-162). -/
def initVendor (m : FeatureMatch) : VendorAggregate :=
  { product_name := m.product_name
    vendor := m.vendor
    main_category := m.main_category
    matching_features := []
    matched_capabilities := ∅
    max_similarity_score := 0
    avg_similarity_score := 0
    total_matches := 0
    rating := 0 }

/-- The per-match mutation of a vendor entry
(`select_matching_vendors`, lines 164-181): append the feature record,
record the capability, fold the running maximum, bump the count. -/
def addMatch (v : VendorAggregate) (m : FeatureMatch) : VendorAggregate :=
  { v with
    matching_features := v.matching_features ++ [toMatchingFeature m]
    matched_capabilities := insert m.matched_capability v.matched_capabilities
    max_similarity_score := max v.max_similarity_score m.similarity_score
    total_matches := v.total_matches + 1 }

/-- One iteration of the `for match in matches` loop of
`select_matching_vendors` over the insertion-ordered vendor dict:
update the entry in place if the key exists, else append a fresh one. -/
def foldMatch (vendors : List (String × VendorAggregate)) (m : FeatureMatch) :
    List (String × VendorAggregate) :=
  if vendors.any fun p => p.1 = vendorKey m then
    vendors.map fun p => if p.1 = vendorKey m then (p.1, addMatch p.2 m) else p
  else vendors ++ [(vendorKey m, addMatch (initVendor m) m)]

/-- The final pass of `select_matching_vendors` (lines 183-188): set
`avg_similarity_score` to the sum of the stored similarity scores divided
by `total_matches` whenever `total_matches > 0`.  (The source also turns
the capability set into a list there; the `Finset` stays a `Finset`.) -/
def finalizeVendor (v : VendorAggregate) : VendorAggregate :=
  if v.total_matches > 0 then
    { v with avg_similarity_score :=
        (v.matching_features.map fun f => f.similarity_score).sum /
          (v.total_matches : ℚ) }
  else v

/-- `FeatureMatcher.select_matching_vendors`
(src/similarity/feature_matcher.py, lines 137-191). -/
def select_matching_vendors (match_list : List FeatureMatch) :
    List (String × VendorAggregate) :=
  (match_list.foldl foldMatch []).map fun p => (p.1, finalizeVendor p.2)

/-- The concrete feature row used by the witnesses below. -/
def sampleRow : FeatureRow :=
  { product_name := "p", seller := "v", main_category := some "CRM Software",
    features_category := some "Leads", feature_name := "lead capture",
    feature_description := "capture leads", feature_percent := 90,
    feature_review := 10 }

/-- A concrete retained match used by the witnesses below. -/
def sampleMatch : FeatureMatch :=
  mkMatch "lead management" sampleRow (3/4) "sample text"

/-- The vendor aggregate that `select_matching_vendors [sampleMatch]`
produces. -/
def sampleAggregate : VendorAggregate :=
  finalizeVendor (addMatch (initVendor sampleMatch) sampleMatch)

/-- Python `str.lower()` (ASCII case folding suffices for the category
strings at issue), stated over the character list so that it evaluates by
kernel reduction. -/
def strLower (s : String) : String :=
  String.mk (s.data.map Char.toLower)

/-- Case-insensitive literal substring containment: the lowercased
needle occurs as a contiguous substring of the lowercased haystack.
This is what `str.contains(needle, case=False)` computes exactly when
the needle holds no regex metacharacter. -/
def strContainsCI (haystack needle : String) : Bool :=
  let h := (strLower haystack).toList
  let n := (strLower needle).toList
  (List.range (h.length + 1)).any fun i => ((h.drop i).take n.length) == n

/-- The per-row category predicate of
`FeatureMatcher.filter_vendors_by_category_and_capabilities` (line 213):
`main_category.str.contains(software_category, case=False, na=False)`.
pandas' default `regex=True` makes the requested category a regex
pattern; `regexSearch hay pat` abstracts the engine call
`re.search(pat, hay, re.IGNORECASE) is not None` (on a metacharacter-free
pattern it coincides with `strContainsCI`).  `na=False` excludes rows
with a missing category. -/
def rowCategoryMatches (regexSearch : String → String → Bool)
    (software_category : String) (row : FeatureRow) : Bool :=
  match row.main_category with
  | some c => regexSearch c software_category
  | none => false

/-- The category-filter stage (lines 210-216): filter by the
case-insensitive `str.contains` predicate, unless `software_category` is
falsy (the empty string) or lowercases to `'all'`, in which case the
whole dataframe is kept. -/
def categoryFilter (regexSearch : String → String → Bool)
    (dataframe : List FeatureRow) (software_category : String) :
    List FeatureRow :=
  if software_category ≠ "" ∧ strLower software_category ≠ "all" then
    dataframe.filter (rowCategoryMatches regexSearch software_category)
  else dataframe

/-- The result dict of `filter_vendors_by_category_and_capabilities`.
`raw_matches` is `[]` on the early empty-category return (the source dict
simply omits the key there). -/
structure FilterResults where
  matching_vendors : List (String × VendorAggregate)
  total_vendors : Nat
  total_matches : Nat
  capabilities_searched : List String
  category_searched : String
  similarity_threshold : ℚ
  raw_matches : List FeatureMatch

/-- `FeatureMatcher.filter_vendors_by_category_and_capabilities`
(src/similarity/feature_matcher.py, lines 193-244): category filter,
early return when it leaves nothing, then matching and vendor
aggregation on the filtered rows. -/
def filter_vendors_by_category_and_capabilities
    (regexSearch : String → String → Bool)
    (vectorize : List String → Option (Nat → Nat → ℚ)) (similarity_threshold : ℚ)
    (dataframe : List FeatureRow) (software_category : String)
    (capabilities : List String) : FilterResults :=
  let category_filtered := categoryFilter regexSearch dataframe software_category
  if category_filtered = [] then
    { matching_vendors := []
      total_vendors := 0
      total_matches := 0
      capabilities_searched := capabilities
      category_searched := software_category
      similarity_threshold := similarity_threshold
      raw_matches := [] }
  else
    let match_list := find_matching_features vectorize similarity_threshold
      capabilities category_filtered
    let matching_vendors := select_matching_vendors match_list
    { matching_vendors := matching_vendors
      total_vendors := matching_vendors.length
      total_matches := match_list.length
      capabilities_searched := capabilities
      category_searched := software_category
      similarity_threshold := similarity_threshold
      raw_matches := match_list }

/-- One pandas cell after `explode`: either a real element of the
exploded list, or the `NaN` that `explode` substitutes for an empty
list. -/
inductive CellVal (α : Type) where
  | val (a : α) : CellVal α
  | nan : CellVal α
deriving DecidableEq

/-- pandas `Series.explode` on one list-valued cell: one row per element
for a non-empty list, and a single `NaN` row for an empty list. -/
def explodeCell {α : Type} (xs : List α) : List (CellVal α) :=
  match xs with
  | [] => [CellVal.nan]
  | x :: rest => (x :: rest).map CellVal.val

/-- A parsed feature dict, as read by `data_loader.preprocess_data`
(lines 83-94) via `x.get(..., default)`: every key may be absent. -/
structure FeatureRecordJson where
  name : Option String
  description : Option String
  percent : Option ℚ
  review : Option ℚ
deriving DecidableEq

/-- A cell of the exploded `Features_list` column: a feature dict, or
anything that is not a dict (including the `NaN` of an empty group). -/
inductive FeatureCell where
  | dict (f : FeatureRecordJson) : FeatureCell
  | nonDict : FeatureCell
deriving DecidableEq

/-- A cell of the exploded `Features` column: a feature-group dict with
optional `Category` and a `features` list (`x.get('features', [])` turns
a missing key into the empty list), or anything that is not a dict
(including the `NaN` of an empty `Features` list). -/
inductive GroupCell where
  | dict (category : Option String) (features : List FeatureCell) : GroupCell
  | nonDict : GroupCell
deriving DecidableEq

/-- One raw product row after `safe_json_parse` of its `Features` column
(`preprocess_data`, lines 40-50): `none` models an unparseable or missing
payload, which sends the row to the discarded `df_without_features`
split. -/
structure ProductRecord where
  product_name : String
  seller : String
  main_category : Option String
  features : Option (List GroupCell)
deriving DecidableEq

/-- `x.get('Category', None) if isinstance(x, dict) else None` (line 70). -/
def groupCategory : CellVal GroupCell → Option String
  | .val (.dict c _) => c
  | _ => none

/-- `x.get('features', []) if isinstance(x, dict) else []` (line 73). -/
def groupFeatures : CellVal GroupCell → List FeatureCell
  | .val (.dict _ fs) => fs
  | _ => []

/-- `x.get('name', '') if isinstance(x, dict) else ''` (lines 86-88). -/
def featureCellName : CellVal FeatureCell → String
  | .val (.dict f) => f.name.getD ""
  | _ => ""

/-- `x.get('description', '') if isinstance(x, dict) else ''` (lines 83-85). -/
def featureCellDescription : CellVal FeatureCell → String
  | .val (.dict f) => f.description.getD ""
  | _ => ""

/-- `x.get('percent', 0) if isinstance(x, dict) else 0` (lines 89-91). -/
def featureCellPercent : CellVal FeatureCell → ℚ
  | .val (.dict f) => f.percent.getD 0
  | _ => 0

/-- `x.get('review', 0) if isinstance(x, dict) else 0` (lines 92-94). -/
def featureCellReview : CellVal FeatureCell → ℚ
  | .val (.dict f) => f.review.getD 0
  | _ => 0

/-- The flattened rows contributed by one cell of the exploded `Features`
column: the second-stage explode of its `Features_list` (line 80) and the
per-feature column extraction (lines 83-94). -/
def flattenGroup (p : ProductRecord) (g : CellVal GroupCell) : List FeatureRow :=
  (explodeCell (groupFeatures g)).map fun fc =>
    { product_name := p.product_name
      seller := p.seller
      main_category := p.main_category
      features_category := groupCategory g
      feature_name := featureCellName fc
      feature_description := featureCellDescription fc
      feature_percent := featureCellPercent fc
      feature_review := featureCellReview fc }

/-- The frame `DataLoader.preprocess_data` returns: either the exploded
feature table of the main path, or — on the early return of lines
56-63, taken when no product at all has parsed features — the original
unexploded frame (one row per product) with the feature columns set to
`None` and `Features` dropped; that frame is represented here by the
product rows themselves. -/
inductive PreprocessResult where
  | exploded (rows : List FeatureRow) : PreprocessResult
  | unexploded (products : List ProductRecord) : PreprocessResult
deriving DecidableEq

/-- `DataLoader.preprocess_data` (src/data_processing/data_loader.py,
lines 52-99): split off the products whose `Features` parsed
(`df_with_features`); if there are none, return the unexploded frame
with null feature columns (lines 56-63); otherwise explode `Features`,
extract the group columns, explode `Features_list`, extract the feature
columns, with the `Features`-less rows dropped (`df_without_features` is
never re-joined). -/
def preprocess_data (products : List ProductRecord) : PreprocessResult :=
  if products.all fun p => p.features.isNone then
    .unexploded products
  else
    .exploded ((products.filterMap fun p =>
      p.features.map fun groups =>
        ((explodeCell groups).map (flattenGroup p)).flatten).flatten)

/-- A concrete product whose single feature group has an empty feature
list, used by the flattening counterexample. -/
def sampleProduct : ProductRecord :=
  { product_name := "p", seller := "v", main_category := some "CRM Software",
    features := some [GroupCell.dict (some "Lead Management") []] }

/-- The request model `VendorQuery` (src/api/app.py, lines 36-41).
`similarity_threshold : Optional[float] = 0.5`: an omitted field is
`some (1/2)`, an explicit JSON null is `none`. -/
structure VendorQuery where
  software_category : String
  capabilities : List String
  similarity_threshold : Option ℚ := some (1/2)
  top_n : Option Nat := some 10
  include_explanations : Bool := false
deriving DecidableEq

/-- The process-wide shared matcher is created once with
`FeatureMatcher(similarity_threshold=0.5)` (app.py, line 33). -/
def initialThreshold : ℚ := 1/2

/-- The update `if query.similarity_threshold:
matcher.similarity_threshold = query.similarity_threshold` (app.py,
lines 72-74): by Python truthiness, `None` and `0.0` both leave the
stored threshold unchanged. -/
def nextThreshold (current : ℚ) (q : VendorQuery) : ℚ :=
  match q.similarity_threshold with
  | none => current
  | some t => if t = 0 then current else t

/-- The threshold each request of a sequence actually runs with, the
matcher object being shared across requests. -/
def effectiveThresholds (queries : List VendorQuery) : List ℚ :=
  (queries.foldl
    (fun acc q =>
      let t := nextThreshold acc.2 q
      (acc.1 ++ [t], t))
    ([], initialThreshold)).1

/-- C1: for every vendor passed to the ranker, the computed rank score is
`feature_weight * clamp(avg_similarity_score, 0, 1)` plus
`rating_weight * (clamp(rating/5, 0, 1) when rating > 0, else 0)`; the
weights enter the formula as given, with no re-normalization. -/
theorem compute_rank_score_formula (feature_weight rating_weight : ℚ)
    (vendor_data : VendorAggregate) :
    compute_rank_score feature_weight rating_weight vendor_data =
      feature_weight * max 0 (min 1 vendor_data.avg_similarity_score) +
        rating_weight *
          (if 0 < vendor_data.rating then max 0 (min 1 (vendor_data.rating / 5))
           else 0) := by
  unfold compute_rank_score
  by_cases h : 0 < vendor_data.rating <;> simp [h]

/-- Filtering commutes with `orderedInsert` when every element accepted
by the filter may come before every other accepted element (the
situation of one tie class of the sort order). -/
theorem filter_orderedInsert {α : Type} (r : α → α → Prop) [DecidableRel r]
    (p : α → Bool) (a : α) (l : List α)
    (hpa : p a = true → ∀ b, p b = true → r a b) :
    (l.orderedInsert r a).filter p =
      if p a then a :: l.filter p else l.filter p := by
  induction l with
  | nil =>
    cases hpa' : p a <;> simp [List.orderedInsert, List.filter_cons, hpa']
  | cons b l ih =>
    rw [List.orderedInsert]
    by_cases hr : r a b
    · rw [if_pos hr]
      cases hpa' : p a <;> simp [List.filter_cons, hpa']
    · rw [if_neg hr]
      cases hpa' : p a
      · cases hb : p b <;> simp [List.filter_cons, hb, hpa', ih]
      · have hpb : p b = false := by
          cases hpb' : p b
          · rfl
          · exact absurd (hpa hpa' b hpb') hr
        simp [List.filter_cons, hpb, hpa', ih]

/-- A stable sort leaves each tie class — the elements accepted by a
filter on which the order is total in both directions — in its original
order: filtering the sorted list gives exactly the filtered input. -/
theorem filter_insertionSort {α : Type} (r : α → α → Prop) [DecidableRel r]
    (p : α → Bool) (hp : ∀ a b, p a = true → p b = true → r a b) :
    ∀ l : List α, (l.insertionSort r).filter p = l.filter p := by
  intro l
  induction l with
  | nil => rfl
  | cons a l ih =>
    rw [List.insertionSort, filter_orderedInsert r p a _ (fun ha b hb => hp a b ha hb)]
    cases hpa : p a <;> simp [List.filter_cons, hpa, ih]

/-- Filtering a front segment of a list yields a front segment of the
filtered list. -/
theorem filter_take_exists {α : Type} (p : α → Bool) :
    ∀ (l : List α) (n : Nat), ∃ k, (l.take n).filter p = (l.filter p).take k := by
  intro l
  induction l with
  | nil => intro n; exact ⟨0, by simp⟩
  | cons a l ih =>
    intro n
    cases n with
    | zero => exact ⟨0, by simp⟩
    | succ n =>
      obtain ⟨k, hk⟩ := ih n
      cases hpa : p a
      · exact ⟨k, by simp [List.filter_cons, hpa, hk]⟩
      · exact ⟨k + 1, by simp [List.filter_cons, hpa, hk]⟩

/-- C4: the ranker's output is sorted by `rank_score` descending; its
length is `min top_n (number of vendors)` (so it is truncated to `top_n`,
and all vendors are returned when `top_n` is at least the vendor count);
the returned vendors are a top-ranked selection (the vendors left out
rank no higher than any returned one); and the sort is stable, also
under real truncation: within every rank-score tie class, the returned
vendors are exactly the first ones in emission order, in that order —
and when nothing is cut off, any correctly ordered pair of the
emission-order list keeps its relative order. -/
theorem rank_vendors_spec (feature_weight rating_weight : ℚ)
    (vendors_dict : List (String × VendorAggregate)) (top_n : Nat) :
    (rank_vendors feature_weight rating_weight vendors_dict top_n).Pairwise rankedBefore ∧
    (rank_vendors feature_weight rating_weight vendors_dict top_n).length
        = min top_n vendors_dict.length ∧
    (vendors_dict.length ≤ top_n →
      List.Perm (rank_vendors feature_weight rating_weight vendors_dict top_n)
        (vendors_dict.map (toRankedVendor feature_weight rating_weight))) ∧
    (∀ a b, rankedBefore a b →
      List.Sublist [a, b] (vendors_dict.map (toRankedVendor feature_weight rating_weight)) →
      vendors_dict.length ≤ top_n →
      List.Sublist [a, b] (rank_vendors feature_weight rating_weight vendors_dict top_n)) ∧
    (∃ rest : List RankedVendor,
      List.Perm (rank_vendors feature_weight rating_weight vendors_dict top_n ++ rest)
        (vendors_dict.map (toRankedVendor feature_weight rating_weight)) ∧
      ∀ b ∈ rest, ∀ a ∈ rank_vendors feature_weight rating_weight vendors_dict top_n,
        rankedBefore a b) ∧
    (∀ s : ℚ, ∃ k,
      (rank_vendors feature_weight rating_weight vendors_dict top_n).filter
          (fun x => decide (x.rank_score = s)) =
        ((vendors_dict.map (toRankedVendor feature_weight rating_weight)).filter
          (fun x => decide (x.rank_score = s))).take k) := by
  by_cases hd : vendors_dict = []
  · subst hd
    refine ⟨by simp [rank_vendors], by simp [rank_vendors], by simp [rank_vendors], ?_,
      ⟨[], by simp [rank_vendors], by simp [rank_vendors]⟩,
      fun s => ⟨0, by simp [rank_vendors]⟩⟩
    intro a b _ hsub _
    simp at hsub
  · have hlen : (((vendors_dict.map (toRankedVendor feature_weight rating_weight)).insertionSort
        rankedBefore)).length = vendors_dict.length := by
      rw [List.length_insertionSort, List.length_map]
    have heq : rank_vendors feature_weight rating_weight vendors_dict top_n =
        (((vendors_dict.map (toRankedVendor feature_weight rating_weight)).insertionSort
          rankedBefore)).take top_n := by
      simp [rank_vendors, hd]
    have htake : ∀ h : vendors_dict.length ≤ top_n,
        rank_vendors feature_weight rating_weight vendors_dict top_n =
          ((vendors_dict.map (toRankedVendor feature_weight rating_weight)).insertionSort
            rankedBefore) := by
      intro h
      rw [heq, List.take_of_length_le (by rw [hlen]; exact h)]
    refine ⟨?_, ?_, ?_, ?_, ?_, ?_⟩
    · rw [heq]
      exact List.Pairwise.sublist (List.take_sublist _ _)
        (List.sorted_insertionSort rankedBefore _)
    · rw [heq, List.length_take, hlen]
    · intro h
      rw [htake h]
      exact (List.perm_insertionSort rankedBefore _)
    · intro a b hab hsub h
      rw [htake h]
      exact List.pair_sublist_insertionSort hab hsub
    · refine ⟨((vendors_dict.map (toRankedVendor feature_weight
          rating_weight)).insertionSort rankedBefore).drop top_n, ?_, ?_⟩
      · rw [heq, List.take_append_drop]
        exact List.perm_insertionSort rankedBefore _
      · intro b hb a ha
        rw [heq] at ha
        exact (List.sorted_insertionSort rankedBefore _).rel_of_mem_take_of_mem_drop ha hb
    · intro s
      obtain ⟨k, hk⟩ := filter_take_exists (fun x => decide (x.rank_score = s))
        ((vendors_dict.map (toRankedVendor feature_weight rating_weight)).insertionSort
          rankedBefore) top_n
      refine ⟨k, ?_⟩
      rw [heq, hk, filter_insertionSort rankedBefore _ ?_]
      intro a b ha hb
      have ha' : a.rank_score = s := of_decide_eq_true ha
      have hb' : b.rank_score = s := of_decide_eq_true hb
      unfold rankedBefore
      rw [ha', hb']

/-- Witness for C4 at a concrete input: two vendors with equal rank
scores (`avg = 1/2`, `rating = 0`), emitted in the order `k1`, `k2`;
their records keep that order in the ranked output, the output is
sorted, and both vendors are returned for `top_n = 10`. -/
theorem rank_vendors_spec_witness :
    (rank_vendors (7/10) (3/10)
        [("k1", { product_name := "p1", vendor := "v1", main_category := some "CRM",
                  matching_features := [], matched_capabilities := ∅,
                  max_similarity_score := 1/2, avg_similarity_score := 1/2,
                  total_matches := 1, rating := 0 }),
         ("k2", { product_name := "p2", vendor := "v2", main_category := some "CRM",
                  matching_features := [], matched_capabilities := ∅,
                  max_similarity_score := 1/2, avg_similarity_score := 1/2,
                  total_matches := 1, rating := 0 })] 10).length = min 10 2 ∧
    List.Sublist
     [toRankedVendor (7/10) (3/10)
        ("k1", { product_name := "p1", vendor := "v1", main_category := some "CRM",
                 matching_features := [], matched_capabilities := ∅,
                 max_similarity_score := 1/2, avg_similarity_score := 1/2,
                 total_matches := 1, rating := 0 }),
     toRankedVendor (7/10) (3/10)
        ("k2", { product_name := "p2", vendor := "v2", main_category := some "CRM",
                 matching_features := [], matched_capabilities := ∅,
                 max_similarity_score := 1/2, avg_similarity_score := 1/2,
                 total_matches := 1, rating := 0 })]
     (rank_vendors (7/10) (3/10)
        [("k1", { product_name := "p1", vendor := "v1", main_category := some "CRM",
                  matching_features := [], matched_capabilities := ∅,
                  max_similarity_score := 1/2, avg_similarity_score := 1/2,
                  total_matches := 1, rating := 0 }),
         ("k2", { product_name := "p2", vendor := "v2", main_category := some "CRM",
                  matching_features := [], matched_capabilities := ∅,
                  max_similarity_score := 1/2, avg_similarity_score := 1/2,
                  total_matches := 1, rating := 0 })] 10) := by
  refine ⟨(rank_vendors_spec (7/10) (3/10) _ 10).2.1, ?_⟩
  exact (rank_vendors_spec (7/10) (3/10) _ 10).2.2.2.1 _ _
    (by norm_num [rankedBefore, toRankedVendor, compute_rank_score])
    (by exact List.Sublist.refl _)
    (by norm_num)

/-- Characterization of the matches produced by `find_matching_features`
when the similarity computation yields a matrix `m` (successfully or via
the all-zero fallback): the output contains exactly the records built
from index pairs `(i, j)` whose score clears the threshold. -/
theorem mem_find_matching_features
    (vectorize : List String → Option (Nat → Nat → ℚ)) (t : ℚ)
    (caps : List String) (df : List FeatureRow) (m : Nat → Nat → ℚ)
    (hm : compute_similarity_matrix vectorize caps
        (df.map fun r => prepare_feature_text r.feature_name r.feature_description) =
      .matrix m)
    (hdf : df ≠ []) (hcaps : caps ≠ []) (mt : FeatureMatch) :
    mt ∈ find_matching_features vectorize t caps df ↔
      ∃ i j, ∃ hi : i < caps.length, ∃ hj : j < df.length,
        t ≤ m i j ∧
        mt = mkMatch (caps.get ⟨i, hi⟩) (df.get ⟨j, hj⟩) (m i j)
          (prepare_feature_text (df.get ⟨j, hj⟩).feature_name
            (df.get ⟨j, hj⟩).feature_description) := by
  unfold find_matching_features
  rw [if_neg (by simp [hdf, hcaps])]
  simp only [hm]
  simp only [List.mem_insertionSort, List.mem_flatten, List.mem_map, List.mem_filterMap]
  constructor
  · rintro ⟨l, ⟨cap, hcap, rfl⟩, hml⟩
    rcases List.mem_filterMap.1 hml with ⟨feat, hfeat, hsome⟩
    by_cases hts : t ≤ m cap.1 feat.1
    · rw [if_pos hts] at hsome
      rcases List.getElem?_eq_some_iff.1 (List.mem_enum_iff_getElem?.1 hcap) with ⟨hi, hci⟩
      rcases List.getElem?_eq_some_iff.1 (List.mem_enum_iff_getElem?.1 hfeat) with ⟨hj, hfj⟩
      refine ⟨cap.1, feat.1, hi, hj, hts, ?_⟩
      cases hsome
      simp [List.get_eq_getElem, hci, hfj]
    · rw [if_neg hts] at hsome
      cases hsome
  · rintro ⟨i, j, hi, hj, hts, rfl⟩
    refine ⟨df.enum.filterMap fun feat =>
        if t ≤ m i feat.1 then
          some (mkMatch (caps.get ⟨i, hi⟩) feat.2 (m i feat.1)
            (prepare_feature_text feat.2.feature_name feat.2.feature_description))
        else none, ⟨(i, caps.get ⟨i, hi⟩), ?_, rfl⟩, ?_⟩
    · exact List.mem_enum_iff_getElem?.2 (by simp [List.get_eq_getElem])
    · exact List.mem_filterMap.2 ⟨(j, df.get ⟨j, hj⟩),
        List.mem_enum_iff_getElem?.2 (by simp [List.get_eq_getElem]),
        by rw [if_pos hts]⟩

/-- C3: a pair (capability `i`, feature row `j`) is retained as a match
exactly when `similarity[i, j] >= threshold` — the comparison is the
inclusive `≤` on exact scores, with no epsilon adjustment on either side. -/
theorem threshold_retention_iff
    (vectorize : List String → Option (Nat → Nat → ℚ)) (t : ℚ)
    (caps : List String) (df : List FeatureRow) (m : Nat → Nat → ℚ) (i j : Nat)
    (hi : i < caps.length) (hj : j < df.length)
    (hm : compute_similarity_matrix vectorize caps
        (df.map fun r => prepare_feature_text r.feature_name r.feature_description) =
      .matrix m) :
    mkMatch (caps.get ⟨i, hi⟩) (df.get ⟨j, hj⟩) (m i j)
        (prepare_feature_text (df.get ⟨j, hj⟩).feature_name
          (df.get ⟨j, hj⟩).feature_description) ∈
      find_matching_features vectorize t caps df ↔ t ≤ m i j := by
  have hcaps : caps ≠ [] := List.ne_nil_of_length_pos (Nat.lt_of_le_of_lt (Nat.zero_le i) hi)
  have hdf : df ≠ [] := List.ne_nil_of_length_pos (Nat.lt_of_le_of_lt (Nat.zero_le j) hj)
  rw [mem_find_matching_features vectorize t caps df m hm hdf hcaps]
  constructor
  · rintro ⟨i', j', hi', hj', hts, heq⟩
    have hscore := congrArg FeatureMatch.similarity_score heq
    simp only [mkMatch] at hscore
    rw [hscore]
    exact hts
  · intro hts
    exact ⟨i, j, hi, hj, hts, rfl⟩

/-- Witness for C3: one capability, one feature row, a similarity matrix
that is constantly `1`, threshold `1/2`: the pair is retained. -/
theorem threshold_retention_iff_witness :
    mkMatch "lead management" sampleRow 1
        (prepare_feature_text "lead capture" "capture leads") ∈
      find_matching_features (fun _ => some fun _ _ => 1) (1/2)
        ["lead management"] [sampleRow] := by
  have h := threshold_retention_iff (fun _ => some fun _ _ => 1) (1/2)
    ["lead management"] [sampleRow]
    (fun _ _ => 1) 0 0 (by norm_num) (by norm_num) rfl
  exact h.mpr (by norm_num)

/-- A sort produces the empty list exactly on the empty list. -/
theorem insertionSort_eq_nil_iff {α : Type} (r : α → α → Prop) [DecidableRel r]
    (l : List α) : l.insertionSort r = [] ↔ l = [] := by
  constructor
  · intro h
    have hlen := List.length_insertionSort r l
    rw [h] at hlen
    exact List.eq_nil_of_length_eq_zero hlen.symm
  · rintro rfl
    rfl

/-- C5: with capabilities, rows and vectorization fixed, the retained
match set is antitone in the threshold: every match retained at `t2` is
retained at any `t1 < t2`. -/
theorem threshold_antitone
    (vectorize : List String → Option (Nat → Nat → ℚ)) (t1 t2 : ℚ) (h12 : t1 < t2)
    (caps : List String) (df : List FeatureRow) (mt : FeatureMatch)
    (hmem : mt ∈ find_matching_features vectorize t2 caps df) :
    mt ∈ find_matching_features vectorize t1 caps df := by
  by_cases hdf : df = []
  · rw [hdf] at hmem
    simp [find_matching_features] at hmem
  by_cases hcaps : caps = []
  · rw [hcaps] at hmem
    simp [find_matching_features] at hmem
  cases hcm : compute_similarity_matrix vectorize caps
      (df.map fun r => prepare_feature_text r.feature_name r.feature_description) with
  | empty =>
    exfalso
    unfold find_matching_features at hmem
    rw [if_neg (by simp [hdf, hcaps])] at hmem
    simp only [hcm] at hmem
    exact List.not_mem_nil mt hmem
  | matrix m =>
    rcases (mem_find_matching_features vectorize t2 caps df m hcm hdf hcaps mt).1 hmem
      with ⟨i, j, hi, hj, hts, rfl⟩
    exact (mem_find_matching_features vectorize t1 caps df m hcm hdf hcaps _).2
      ⟨i, j, hi, hj, le_trans (le_of_lt h12) hts, rfl⟩

/-- Witness for C5: the match retained at threshold `1/2` is still
retained at threshold `1/4`. -/
theorem threshold_antitone_witness :
    mkMatch "lead management" sampleRow 1
        (prepare_feature_text "lead capture" "capture leads") ∈
      find_matching_features (fun _ => some fun _ _ => 1) (1/4)
        ["lead management"] [sampleRow] := by
  refine threshold_antitone (fun _ => some fun _ _ => 1) (1/4) (1/2) (by norm_num)
    ["lead management"] [sampleRow] _ ?_
  exact (mem_find_matching_features (fun _ => some fun _ _ => 1) (1/2)
      ["lead management"] [sampleRow] (fun _ _ => 1) rfl (by simp) (by simp) _).2
    ⟨0, 0, by norm_num, by norm_num, by norm_num, rfl⟩

/-- C8: the matcher is total on degenerate inputs.  An empty capability
list or an empty row set yields the empty match list; when vectorization
fails the source falls back to the all-zero similarity matrix, and under
any positive threshold that yields no matches.  (Every function of the
embedding is total, so no exception escapes.) -/
theorem degenerate_inputs_empty
    (vectorize : List String → Option (Nat → Nat → ℚ)) (t : ℚ)
    (caps : List String) (df : List FeatureRow) (feature_texts : List String) :
    find_matching_features vectorize t [] df = [] ∧
    find_matching_features vectorize t caps [] = [] ∧
    (vectorize (caps ++ feature_texts) = none → caps ≠ [] → feature_texts ≠ [] →
      compute_similarity_matrix vectorize caps feature_texts = .matrix fun _ _ => 0) ∧
    ((∀ texts, vectorize texts = none) → 0 < t →
      find_matching_features vectorize t caps df = []) := by
  refine ⟨by simp [find_matching_features], by simp [find_matching_features], ?_, ?_⟩
  · intro hv hc hf
    unfold compute_similarity_matrix
    rw [if_neg (by simp [hc, hf]), hv]
  · intro hfail ht
    by_cases hdf : df = []
    · simp [hdf, find_matching_features]
    by_cases hcaps : caps = []
    · simp [hcaps, find_matching_features]
    unfold find_matching_features
    rw [if_neg (by simp [hdf, hcaps])]
    have hcm : compute_similarity_matrix vectorize caps
        (df.map fun r => prepare_feature_text r.feature_name r.feature_description) =
        .matrix fun _ _ => 0 := by
      unfold compute_similarity_matrix
      rw [if_neg (by simp [hcaps, hdf]), hfail]
    simp only [hcm]
    rw [insertionSort_eq_nil_iff]
    simp [List.filterMap_eq_nil_iff, not_le.mpr ht]

/-- Witness for C8: a vectorizer that always fails yields the all-zero
matrix on non-empty inputs, and an empty match list at threshold `1/2`. -/
theorem degenerate_inputs_empty_witness :
    compute_similarity_matrix (fun _ => none) ["lead management"] ["txt"] =
      .matrix (fun _ _ => 0) ∧
    find_matching_features (fun _ => none) (1/2) ["lead management"] [sampleRow] = [] := by
  constructor
  · exact (degenerate_inputs_empty (fun _ => none) (1/2) ["lead management"]
      [sampleRow] ["txt"]).2.2.1 rfl (by simp) (by simp)
  · exact (degenerate_inputs_empty (fun _ => none) (1/2) ["lead management"]
      [sampleRow] ["txt"]).2.2.2 (fun _ => rfl) (by norm_num)

/-- The similarity scores stored by `addMatch` grow by exactly the score
of the incoming match. -/
theorem addMatch_scores (v : VendorAggregate) (m : FeatureMatch) :
    (addMatch v m).matching_features.map (fun f => f.similarity_score) =
      (v.matching_features.map fun f => f.similarity_score) ++ [m.similarity_score] := by
  simp [addMatch, toMatchingFeature]

/-- Invariant of one iteration of the `select_matching_vendors` loop:
every vendor entry counts its stored matches in `total_matches` and holds
their maximum in `max_similarity_score` (given nonnegative scores). -/
theorem foldMatch_stats (d : List (String × VendorAggregate)) (m : FeatureMatch)
    (hm : 0 ≤ m.similarity_score)
    (hd : ∀ p ∈ d,
      p.2.total_matches = (p.2.matching_features.map fun f => f.similarity_score).length ∧
      0 < p.2.total_matches ∧
      p.2.max_similarity_score ∈ (p.2.matching_features.map fun f => f.similarity_score) ∧
      ∀ s ∈ p.2.matching_features.map fun f => f.similarity_score,
        s ≤ p.2.max_similarity_score) :
    ∀ p ∈ foldMatch d m,
      p.2.total_matches = (p.2.matching_features.map fun f => f.similarity_score).length ∧
      0 < p.2.total_matches ∧
      p.2.max_similarity_score ∈ (p.2.matching_features.map fun f => f.similarity_score) ∧
      ∀ s ∈ p.2.matching_features.map fun f => f.similarity_score,
        s ≤ p.2.max_similarity_score := by
  have haddMatch : ∀ v : VendorAggregate,
      (v.total_matches = (v.matching_features.map fun f => f.similarity_score).length ∧
        v.max_similarity_score ∈ (v.matching_features.map fun f => f.similarity_score) ∨
        v.matching_features = [] ∧ v.total_matches = 0 ∧ v.max_similarity_score = 0) →
      (∀ s ∈ v.matching_features.map fun f => f.similarity_score,
        s ≤ v.max_similarity_score) →
      (addMatch v m).total_matches =
          ((addMatch v m).matching_features.map fun f => f.similarity_score).length ∧
        0 < (addMatch v m).total_matches ∧
        (addMatch v m).max_similarity_score ∈
          ((addMatch v m).matching_features.map fun f => f.similarity_score) ∧
        ∀ s ∈ (addMatch v m).matching_features.map fun f => f.similarity_score,
          s ≤ (addMatch v m).max_similarity_score := by
    intro v hv hub
    rw [addMatch_scores]
    refine ⟨?_, by simp [addMatch], ?_, ?_⟩
    · rcases hv with ⟨hlen, _⟩ | ⟨hnil, hzero, _⟩
      · simp [addMatch, hlen]
      · simp [addMatch, hnil, hzero]
    · rcases max_choice v.max_similarity_score m.similarity_score with hmax | hmax
      · rcases hv with ⟨_, hmem⟩ | ⟨hnil, _, hzero⟩
        · exact List.mem_append_left _ (by simpa [addMatch, hmax] using hmem)
        · have : (addMatch v m).max_similarity_score = m.similarity_score := by
            simp [addMatch, hzero, max_eq_right hm]
          rw [this]
          simp [hnil]
      · rw [show (addMatch v m).max_similarity_score = max v.max_similarity_score
            m.similarity_score from rfl, hmax]
        exact List.mem_append_right _ (by simp)
    · intro s hs
      rcases List.mem_append.1 hs with hs | hs
      · exact le_trans (hub s hs) (le_max_left _ _)
      · rw [List.mem_singleton.1 hs]
        exact le_max_right _ _
  intro p hp
  unfold foldMatch at hp
  by_cases hany : (d.any fun q => q.1 = vendorKey m) = true
  · rw [if_pos hany] at hp
    rcases List.mem_map.1 hp with ⟨q, hq, rfl⟩
    by_cases hk : q.1 = vendorKey m
    · simp only [if_pos hk]
      obtain ⟨h1, _, h3, h4⟩ := hd q hq
      exact haddMatch q.2 (Or.inl ⟨h1, h3⟩) h4
    · simp only [if_neg hk]
      exact hd q hq
  · rw [if_neg hany] at hp
    rcases List.mem_append.1 hp with hp | hp
    · exact hd p hp
    · rw [List.mem_singleton.1 hp]
      exact haddMatch (initVendor m) (Or.inr ⟨rfl, rfl, rfl⟩) (by simp [initVendor])

/-- The loop invariant of `select_matching_vendors`, folded over the
whole match list. -/
theorem foldl_stats (match_list : List FeatureMatch)
    (hpos : ∀ m ∈ match_list, 0 ≤ m.similarity_score) :
    ∀ d : List (String × VendorAggregate),
      (∀ p ∈ d,
        p.2.total_matches = (p.2.matching_features.map fun f => f.similarity_score).length ∧
        0 < p.2.total_matches ∧
        p.2.max_similarity_score ∈ (p.2.matching_features.map fun f => f.similarity_score) ∧
        ∀ s ∈ p.2.matching_features.map fun f => f.similarity_score,
          s ≤ p.2.max_similarity_score) →
      ∀ p ∈ match_list.foldl foldMatch d,
        p.2.total_matches = (p.2.matching_features.map fun f => f.similarity_score).length ∧
        0 < p.2.total_matches ∧
        p.2.max_similarity_score ∈ (p.2.matching_features.map fun f => f.similarity_score) ∧
        ∀ s ∈ p.2.matching_features.map fun f => f.similarity_score,
          s ≤ p.2.max_similarity_score := by
  induction match_list with
  | nil => intro d hd p hp; exact hd p hp
  | cons m rest ih =>
    intro d hd p hp
    exact ih (fun x hx => hpos x (List.mem_cons_of_mem _ hx)) (foldMatch d m)
      (foldMatch_stats d m (hpos m (List.mem_cons_self _ _)) hd) p hp

/-- C2: every vendor aggregate produced from retained matches (which, as
cosine similarities over nonnegative term weights, are nonnegative) stores
at least one match, counts them in `total_matches`, holds their arithmetic
mean over the match count in `avg_similarity_score`, and their maximum in
`max_similarity_score`. -/
theorem vendor_aggregate_stats (match_list : List FeatureMatch)
    (hpos : ∀ m ∈ match_list, 0 ≤ m.similarity_score)
    (p : String × VendorAggregate) (hp : p ∈ select_matching_vendors match_list) :
    p.2.total_matches = (p.2.matching_features.map fun f => f.similarity_score).length ∧
    0 < p.2.total_matches ∧
    p.2.avg_similarity_score =
      (p.2.matching_features.map fun f => f.similarity_score).sum /
        ((p.2.matching_features.map fun f => f.similarity_score).length : ℚ) ∧
    p.2.max_similarity_score ∈ (p.2.matching_features.map fun f => f.similarity_score) ∧
    ∀ s ∈ p.2.matching_features.map fun f => f.similarity_score,
      s ≤ p.2.max_similarity_score := by
  unfold select_matching_vendors at hp
  rcases List.mem_map.1 hp with ⟨q, hq, rfl⟩
  obtain ⟨h1, h2, h3, h4⟩ := foldl_stats match_list hpos [] (by simp) q hq
  have hfin : finalizeVendor q.2 =
      { q.2 with avg_similarity_score :=
          (q.2.matching_features.map fun f => f.similarity_score).sum /
            (q.2.total_matches : ℚ) } := by
    unfold finalizeVendor
    rw [if_pos h2]
  refine ⟨by simp [hfin, h1], by simp [hfin, h2], ?_, by simpa [hfin] using h3,
    by simpa [hfin] using h4⟩
  rw [hfin]
  simp only [h1]

/-- Witness for C2: aggregating the single retained match `sampleMatch`
(score `3/4`) yields an aggregate with one match whose average equals its
score and whose maximum is that score. -/
theorem vendor_aggregate_stats_witness :
    sampleAggregate.total_matches =
      (sampleAggregate.matching_features.map fun f => f.similarity_score).length ∧
    0 < sampleAggregate.total_matches ∧
    sampleAggregate.avg_similarity_score =
      (sampleAggregate.matching_features.map fun f => f.similarity_score).sum /
        ((sampleAggregate.matching_features.map fun f => f.similarity_score).length : ℚ) ∧
    sampleAggregate.max_similarity_score ∈
      (sampleAggregate.matching_features.map fun f => f.similarity_score) := by
  have h := vendor_aggregate_stats [sampleMatch]
    (by intro m hm; rw [List.mem_singleton.1 hm]; norm_num [sampleMatch, mkMatch])
    (vendorKey sampleMatch, sampleAggregate)
    (by simp [select_matching_vendors, foldMatch, sampleAggregate])
  exact ⟨h.1, h.2.1, h.2.2.1, h.2.2.2.1⟩

/-- The matches reported by the pipeline entry point are always computed
from the category-filtered rows (on the early empty return both sides are
empty). -/
theorem raw_matches_eq (regexSearch : String → String → Bool)
    (vectorize : List String → Option (Nat → Nat → ℚ))
    (t : ℚ) (df : List FeatureRow) (cat : String) (caps : List String) :
    (filter_vendors_by_category_and_capabilities regexSearch vectorize t df cat
        caps).raw_matches =
      find_matching_features vectorize t caps (categoryFilter regexSearch df cat) := by
  unfold filter_vendors_by_category_and_capabilities
  by_cases h : categoryFilter regexSearch df cat = []
  · simp [h, find_matching_features]
  · simp [h]

/-- C6 counterexample: with `software_category = "all"` a row whose
category does not contain "all" is nevertheless kept — even under a
matching engine that never reports a hit — so "kept iff case-insensitive
substring containment" is false as an unconditional statement. -/
theorem category_filter_counterexample :
    sampleRow ∈ categoryFilter (fun _ _ => false) [sampleRow] "all" ∧
    strContainsCI "CRM Software" "all" = false := by
  constructor
  · unfold categoryFilter
    rw [if_neg (by decide)]
    simp
  · decide

/-- C6 (amended): when `software_category` is non-empty, does not
lowercase to `'all'`, and is a literal pattern — one on which the regex
engine behind pandas' default `regex=True` agrees with case-insensitive
substring containment, as it does on every metacharacter-free string —
a row is kept exactly when it is in the input and its (present)
`main_category` contains the requested category case-insensitively as a
substring; and category filtering happens strictly before similarity, so
the pipeline's matches are computed from the filtered rows. -/
theorem category_filter_spec (regexSearch : String → String → Bool)
    (vectorize : List String → Option (Nat → Nat → ℚ)) (t : ℚ)
    (df : List FeatureRow) (cat : String) (caps : List String) (row : FeatureRow)
    (h1 : cat ≠ "") (h2 : strLower cat ≠ "all")
    (hlit : ∀ hay, regexSearch hay cat = strContainsCI hay cat) :
    (row ∈ categoryFilter regexSearch df cat ↔
      row ∈ df ∧ (match row.main_category with
        | some c => strContainsCI c cat
        | none => false) = true) ∧
    (filter_vendors_by_category_and_capabilities regexSearch vectorize t df cat
        caps).raw_matches =
      find_matching_features vectorize t caps (categoryFilter regexSearch df cat) := by
  refine ⟨?_, raw_matches_eq regexSearch vectorize t df cat caps⟩
  unfold categoryFilter
  rw [if_pos ⟨h1, h2⟩]
  rw [List.mem_filter]
  unfold rowCategoryMatches
  cases hmc : row.main_category with
  | some c => simp [hlit]
  | none => exact Iff.rfl

/-- Witness for C6 at `software_category = "CRM"`, with the engine
instantiated to the literal-containment semantics it has on this
metacharacter-free pattern. -/
theorem category_filter_spec_witness :
    (sampleRow ∈ categoryFilter strContainsCI [sampleRow] "CRM" ↔
      sampleRow ∈ [sampleRow] ∧ (match sampleRow.main_category with
        | some c => strContainsCI c "CRM"
        | none => false) = true) ∧
    (filter_vendors_by_category_and_capabilities strContainsCI
        (fun _ => some fun _ _ => 1) (1/2)
        [sampleRow] "CRM" ["lead management"]).raw_matches =
      find_matching_features (fun _ => some fun _ _ => 1) (1/2) ["lead management"]
        (categoryFilter strContainsCI [sampleRow] "CRM") :=
  category_filter_spec strContainsCI (fun _ => some fun _ _ => 1) (1/2) [sampleRow]
    "CRM" ["lead management"] sampleRow (by decide) (by decide) (fun _ => rfl)

/-- C9: when `software_category` is the empty string or equals `'all'` in
any casing, the category filter is bypassed and every row of the catalog
is handed to the similarity stage. -/
theorem category_filter_bypass (regexSearch : String → String → Bool)
    (vectorize : List String → Option (Nat → Nat → ℚ)) (t : ℚ)
    (df : List FeatureRow) (cat : String) (caps : List String)
    (h : cat = "" ∨ strLower cat = "all") :
    categoryFilter regexSearch df cat = df ∧
    (filter_vendors_by_category_and_capabilities regexSearch vectorize t df cat
        caps).raw_matches =
      find_matching_features vectorize t caps df := by
  have hcf : categoryFilter regexSearch df cat = df := by
    unfold categoryFilter
    rcases h with h | h
    · rw [if_neg]
      simp [h]
    · rw [if_neg]
      simp [h]
  exact ⟨hcf, by rw [raw_matches_eq, hcf]⟩

/-- Witness for C9 at `software_category = "ALL"`: the whole frame is
kept even under an engine that never reports a hit. -/
theorem category_filter_bypass_witness :
    categoryFilter (fun _ _ => false) [sampleRow] "ALL" = [sampleRow] ∧
    (filter_vendors_by_category_and_capabilities (fun _ _ => false)
        (fun _ => some fun _ _ => 1) (1/2)
        [sampleRow] "ALL" ["lead management"]).raw_matches =
      find_matching_features (fun _ => some fun _ _ => 1) (1/2) ["lead management"]
        [sampleRow] :=
  category_filter_bypass (fun _ _ => false) (fun _ => some fun _ _ => 1) (1/2)
    [sampleRow] "ALL" ["lead management"] (Or.inr (by decide))

/-- C7 counterexample: a FeatureGroup with an empty feature list yields
ONE placeholder row, not zero — pandas `explode` turns an empty list into
a `NaN` row, which the column extraction fills with `''` / `0` defaults;
the whole catalog of the one-product example flattens to exactly that
placeholder row. -/
theorem flatten_empty_group_counterexample :
    (flattenGroup sampleProduct (.val (.dict (some "Lead Management") []))).length = 1 ∧
    ¬ (flattenGroup sampleProduct
        (.val (.dict (some "Lead Management") []))).length = 0 ∧
    preprocess_data [sampleProduct] =
      .exploded [{ product_name := "p", seller := "v",
                   main_category := some "CRM Software",
                   features_category := some "Lead Management",
                   feature_name := "", feature_description := "",
                   feature_percent := 0, feature_review := 0 }] := by
  refine ⟨rfl, by decide, by decide⟩

/-- C7 (amended): a FeatureGroup yields one flattened row per
FeatureRecord when its feature list is non-empty; a FeatureGroup whose
feature list is empty or missing yields exactly one placeholder row with
empty name/description and zero percent/review; and for a single-product
catalog, `preprocess_data` is the concatenation of the per-group rows
when the product's `Features` parsed, and the unexploded null-feature
frame (the early return of lines 56-63) when it did not. -/
theorem flatten_group_rows (p : ProductRecord) (c : Option String)
    (fs : List FeatureCell) :
    (flattenGroup p (.val (.dict c fs))).length = (if fs = [] then 1 else fs.length) ∧
    flattenGroup p (.val (.dict c [])) =
      [{ product_name := p.product_name, seller := p.seller,
         main_category := p.main_category, features_category := c,
         feature_name := "", feature_description := "", feature_percent := 0,
         feature_review := 0 }] ∧
    preprocess_data [p] =
      (match p.features with
       | none => .unexploded [p]
       | some groups =>
           .exploded (((explodeCell groups).map (flattenGroup p)).flatten)) := by
  refine ⟨?_, rfl, ?_⟩
  · cases fs with
    | nil => rfl
    | cons x rest =>
      rw [if_neg (by simp)]
      simp [flattenGroup, groupFeatures, explodeCell]
  · cases hf : p.features with
    | none => simp [preprocess_data, hf]
    | some groups => simp [preprocess_data, hf]

/-- C10: the endpoint updates the shared matcher's threshold only on a
truthy `similarity_threshold`; a request carrying `0.0` runs with the
threshold already stored on the shared matcher — `0.5` on a fresh
process, or whatever the last request with a nonzero threshold set — so
one request's effective threshold can depend on an earlier request. -/
theorem zero_threshold_reuses_stored (c : ℚ) (q q1 q2 : VendorQuery) (t : ℚ)
    (hq : q.similarity_threshold = some 0)
    (h1 : q1.similarity_threshold = some t) (ht : t ≠ 0)
    (h2 : q2.similarity_threshold = some 0) :
    nextThreshold c q = c ∧
    effectiveThresholds [q] = [initialThreshold] ∧
    effectiveThresholds [q1, q2] = [t, t] := by
  refine ⟨?_, ?_, ?_⟩
  · simp [nextThreshold, hq]
  · simp [effectiveThresholds, nextThreshold, hq]
  · simp [effectiveThresholds, nextThreshold, h1, h2, ht]

/-- Witness for C10: a `0.0` request on a matcher holding `3/4` keeps
`3/4`; a fresh-process `0.0` request runs at `0.5`; and after a request
set `7/10`, a following `0.0` request runs at `7/10`. -/
theorem zero_threshold_reuses_stored_witness :
    nextThreshold (3/4) ⟨"CRM", ["lead management"], some 0, some 10, false⟩ = 3/4 ∧
    effectiveThresholds [⟨"CRM", ["lead management"], some 0, some 10, false⟩] =
      [initialThreshold] ∧
    effectiveThresholds [⟨"CRM", ["lead management"], some (7/10), some 10, false⟩,
      ⟨"CRM", ["lead management"], some 0, some 10, false⟩] = [7/10, 7/10] :=
  zero_threshold_reuses_stored (3/4) _ _ _ (7/10) rfl rfl (by norm_num) rfl

end VendorQual
